import Mathlib

/-!
Verification of the FSM string-matching library: the leaf matchers
MatchCharacter and MatchCharacterRange, in both the FailState/AcceptState
family and the single-ReturnState family, and the StateMachine backtracking
traversal of finitestatemachine.h.  The uint32 input length is represented
by the length of the remaining input list; every consumed count produced by
a leaf matcher is bounded by the remaining length, so no modular wraparound
can occur in the pointer and length arithmetic of the traversal.
-/

namespace FSM

variable {T S L A : Type} [LinearOrder T] [DecidableEq S] [DecidableEq L]

/-- Embeds std::map lookup, as used for States.find and
AcceptanceStates.find: the map is an association list with unique keys, and
find returns the first binding of the key, if any. -/
def mapFind : List (S × A) → S → Option A
  | [], _ => none
  | (k, v) :: rest, s => if k = s then some v else mapFind rest s

/-- MatchCharacter::Match from matchcharacter.h lines 35-41, the
FailState/AcceptState family: fail on empty input, or when
(token differs from input[0]) xor negate holds; otherwise consume one. -/
def matchCharacterMatch (failS accS : L) (tok : T) (neg : Bool) :
    List T → L × Nat
  | [] => (failS, 0)
  | x :: _ => if (decide (tok ≠ x)).xor neg then (failS, 0) else (accS, 1)

/-- MatchCharacter::Match from the single-ReturnState family
(src/unnamed/part_000 lines 67-73): same condition, but the same label is
returned on success and on failure. -/
def matchCharacterRetMatch (ret : L) (tok : T) (neg : Bool) :
    List T → L × Nat
  | [] => (ret, 0)
  | x :: _ => if (decide (tok ≠ x)).xor neg then (ret, 0) else (ret, 1)

/-- MatchCharacterRange::Match from matchcharacter.h lines 85-95, the
FailState/AcceptState family: fail on empty input, or when
(input[0] < start or input[0] > end) xor negate holds. -/
def matchCharacterRangeMatch (failS accS : L) (lo hi : T) (neg : Bool) :
    List T → L × Nat
  | [] => (failS, 0)
  | x :: _ =>
    if ((decide (x < lo)).or (decide (x > hi))).xor neg then (failS, 0)
    else (accS, 1)

/-- MatchCharacterRange::Match from matchcharacterrange.h lines 35-45, the
single-ReturnState family. -/
def matchCharacterRangeRetMatch (ret : L) (lo hi : T) (neg : Bool) :
    List T → L × Nat
  | [] => (ret, 0)
  | x :: _ =>
    if ((decide (x < lo)).or (decide (x > hi))).xor neg then (ret, 0)
    else (ret, 1)

/-- The leaf matcher objects of the repository, as they can be stored in a
transition of a StateMachine through the MatchInterface pointer: each
constructor carries the configured label template arguments and the
constructor-set fields of one class. -/
inductive Matcher (T L : Type) : Type where
  | matchCharacter (failS accS : L) (tok : T) (neg : Bool)
  | matchCharacterRet (ret : L) (tok : T) (neg : Bool)
  | matchCharacterRange (failS accS : L) (lo hi : T) (neg : Bool)
  | matchCharacterRangeRet (ret : L) (lo hi : T) (neg : Bool)

/-- Virtual dispatch of MatchInterface::Match to the leaf implementation. -/
def Matcher.run : Matcher T L → List T → L × Nat
  | .matchCharacter f a t n, input => matchCharacterMatch f a t n input
  | .matchCharacterRet r t n, input => matchCharacterRetMatch r t n input
  | .matchCharacterRange f a lo hi n, input =>
      matchCharacterRangeMatch f a lo hi n input
  | .matchCharacterRangeRet r lo hi n, input =>
      matchCharacterRangeRetMatch r lo hi n input

/-- The StateMachine data of finitestatemachine.h: the FailState template
argument, InitialState, the States map from state name to its transition
list, and the AcceptanceStates map from state name to label.  A transition
is a matcher paired with the vector of its target states. -/
structure StateMachine (T S L : Type) : Type where
  failState : L
  initialState : S
  states : List (S × List (Matcher T L × List S))
  acceptanceStates : List (S × L)

/-- The inner for-loop over the target vector of one transition
(finitestatemachine.h lines 166-175): recurse on each target in order and
return the first result whose consumed count is nonzero.  The outer Option
is none when a recursive call ran out of fuel; the inner Option is none when
the loop finished without an early return. -/
def targetLoop (rec : S → Option (L × Nat)) : List S → Option (Option (L × Nat))
  | [] => some none
  | s :: rest =>
    match rec s with
    | none => none
    | some retVal =>
      if retVal.2 ≠ 0 then some (some retVal) else targetLoop rec rest

/-- The outer for-loop over the transitions of the current state
(finitestatemachine.h lines 162-176): a transition is skipped
(the continue statement) when the label returned by its matcher differs
from FailState; otherwise each target is tried with the input advanced by
the consumed count and charsMatched increased by the same amount. -/
def transLoop (rec : List T → S → Nat → Option (L × Nat)) (failS : L)
    (input : List T) (charsMatched : Nat) :
    List (Matcher T L × List S) → Option (Option (L × Nat))
  | [] => some none
  | (m, targets) :: rest =>
    if (Matcher.run m input).1 ≠ failS then
      transLoop rec failS input charsMatched rest
    else
      match targetLoop
          (fun s => rec (input.drop (Matcher.run m input).2) s
            (charsMatched + (Matcher.run m input).2)) targets with
      | none => none
      | some (some retVal) => some (some retVal)
      | some none => transLoop rec failS input charsMatched rest

/-- The private recursive Match of StateMachine (finitestatemachine.h lines
142-179), with explicit fuel standing for the unbounded C++ call stack:
none means the recursion did not finish within the given fuel.  The
condition of the early-return block and the validState guard around the
transition loop follow lines 148-161. -/
def stepMatch (M : StateMachine T S L) : Nat → List T → S → Nat → Option (L × Nat)
  | 0, _, _, _ => none
  | fuel + 1, input, curState, charsMatched =>
    if input.length == 0
        || (match mapFind M.states curState with
            | some currentState => currentState.isEmpty
            | none => false)
        || (!(mapFind M.states curState).isSome
            && (mapFind M.acceptanceStates curState).isSome) then
      match mapFind M.acceptanceStates curState with
      | some lbl => some (lbl, charsMatched)
      | none => some (M.failState, 0)
    else
      match mapFind M.states curState with
      | some currentState =>
        match transLoop (fun i s c => stepMatch M fuel i s c)
            M.failState input charsMatched currentState with
        | none => none
        | some (some retVal) => some retVal
        | some none => some (M.failState, 0)
      | none => some (M.failState, 0)

/-- The public Match of StateMachine (finitestatemachine.h lines 127-132):
run the recursive Match from InitialState with zero characters matched. -/
def machineMatch (M : StateMachine T S L) (fuel : Nat) (input : List T) :
    Option (L × Nat) :=
  stepMatch M fuel input M.initialState 0

/-- The same recursive Match, keeping the literal shape of
finitestatemachine.h lines 148-153: the lookup result is dereferenced into
currentState before the validity checks; the argument junk stands for
whatever value a dereference of the end iterator would yield. -/
def stepMatchDeref (M : StateMachine T S L)
    (junk : List (Matcher T L × List S)) :
    Nat → List T → S → Nat → Option (L × Nat)
  | 0, _, _, _ => none
  | fuel + 1, input, curState, charsMatched =>
    if input.length == 0
        || ((mapFind M.states curState).isSome
            && ((mapFind M.states curState).getD junk).isEmpty)
        || (!(mapFind M.states curState).isSome
            && (mapFind M.acceptanceStates curState).isSome) then
      match mapFind M.acceptanceStates curState with
      | some lbl => some (lbl, charsMatched)
      | none => some (M.failState, 0)
    else
      if (mapFind M.states curState).isSome then
        match transLoop (fun i s c => stepMatchDeref M junk fuel i s c)
            M.failState input charsMatched
            ((mapFind M.states curState).getD junk) with
        | none => none
        | some (some retVal) => some retVal
        | some none => some (M.failState, 0)
      else
        some (M.failState, 0)

/-- The one-argument MatchCharacter constructor (matchcharacter.h lines
22-24): only the token field is initialized; the boolean negation member is
left indeterminate, which the explicit argument indet models. -/
def matchCharacterCtor1 (failS accS : L) (i : T) (indet : Bool) :
    Matcher T L :=
  Matcher.matchCharacter failS accS i indet

/-- The two-argument MatchCharacter constructor (matchcharacter.h lines
26-29): both fields are initialized. -/
def matchCharacterCtor2 (failS accS : L) (i : T) (negate : Bool) :
    Matcher T L :=
  Matcher.matchCharacter failS accS i negate

/-- A machine with one transition whose matcher succeeds with consumed 1:
state 0 goes to accepting state 1 (label 7) on the exact token a, with
matcher labels FailState 0 and AcceptState 1. -/
def M1 : StateMachine Char Nat Nat :=
  ⟨0, 0, [(0, [(Matcher.matchCharacter 0 1 'a' false, [1])])], [(1, 7)]⟩

/-- A machine whose first matcher fails on the input (exact token b against
input a) but whose target chain then consumes via a single-ReturnState
matcher, reaching accepting state 2 (label 7). -/
def M1b : StateMachine Char Nat Nat :=
  ⟨0, 0,
    [(0, [(Matcher.matchCharacter 0 1 'b' false, [1])]),
      (1, [(Matcher.matchCharacterRet 0 'a' false, [2])])],
    [(2, 7)]⟩

/-- The concatenation example machine of the spec and of the class comment
of finitestatemachine.h, built from the FailState/AcceptState matcher
family: exact a from state a to state b, then the ranges a-z to accepting
state c (label 1, LOWER) and A-Z to accepting state d (label 2, UPPER). -/
def M2 : StateMachine Char Char Nat :=
  ⟨0, 'a',
    [('a', [(Matcher.matchCharacter 0 1 'a' false, ['b'])]),
      ('b', [(Matcher.matchCharacterRange 0 1 'a' 'z' false, ['c']),
        (Matcher.matchCharacterRange 0 1 'A' 'Z' false, ['d'])])],
    [('c', 1), ('d', 2)]⟩

/-- A machine with two transitions from state 0 that both match the token x
but lead to different accepting labels: the earlier one to state 1
(label 5), the later one to state 2 (label 6). -/
def M3 : StateMachine Char Nat Nat :=
  ⟨0, 0,
    [(0, [(Matcher.matchCharacter 0 1 'x' false, [1]),
      (Matcher.matchCharacter 0 2 'x' false, [2])])],
    [(1, 5), (2, 6)]⟩

/-- Claim C1, behaviour of the code at the failing input: in machine M1 the
matcher of the single transition succeeds with consumed 1, yet the
traversal never explores its target (the accepting state with label 7 is
unreached and Match yields the fail pair), because line 164 of
finitestatemachine.h keeps only transitions whose matcher label equals
FailState; dually, in machine M1b the first matcher fails with consumed 0
and its target IS explored, deciding the final result.  The label, not the
consumed count, drives the control flow, contradicting the claim. -/
theorem c1_gate_eval :
    Matcher.run (Matcher.matchCharacter (0 : Nat) 1 'a' false) ['a'] = (1, 1)
    ∧ machineMatch M1 5 ['a'] = some (0, 0)
    ∧ Matcher.run (Matcher.matchCharacter (0 : Nat) 1 'b' false) ['a'] = (0, 0)
    ∧ machineMatch M1b 5 ['a'] = some (7, 1) := by decide

/-- Claim C2, behaviour of the code on the concatenation example: the code
returns the fail pair (0, 0) on every one of the four inputs, where the
claim requires (LOWER, 2) on the input ay and (UPPER, 2) on the input aY,
because the succeeded exact-token matcher at the initial state is skipped
by the inverted gate of line 164 of finitestatemachine.h. -/
theorem c2_concat_eval :
    machineMatch M2 8 ['a', 'y'] = some (0, 0)
    ∧ machineMatch M2 8 ['a', 'Y'] = some (0, 0)
    ∧ machineMatch M2 8 ['a', '1'] = some (0, 0)
    ∧ machineMatch M2 8 ['a'] = some (0, 0) := by decide

/-- Claim C3, behaviour of the code at the failing input: in machine M3 both
transitions from the initial state match the token x with consumed 1, but
the code returns the fail pair instead of the label 5 reachable through the
earlier-declared transition: both succeeded matchers are skipped by the
gate of line 164 of finitestatemachine.h, so neither target is explored. -/
theorem c3_order_eval :
    (Matcher.run (Matcher.matchCharacter (0 : Nat) 1 'x' false) ['x']).2 = 1
    ∧ (Matcher.run (Matcher.matchCharacter (0 : Nat) 2 'x' false) ['x']).2 = 1
    ∧ machineMatch M3 5 ['x'] = some (0, 0) := by decide

/-- Claim C9, behaviour of the code at the failing input: the one-argument
MatchCharacter constructor leaves the negation member uninitialized; when
the indeterminate value it holds is true, the constructed matcher fails on
its own token, whereas the matcher built with the two-argument constructor
and an explicit false succeeds, so the one-argument constructor is not
equivalent to passing false. -/
theorem c9_uninit_negate_eval :
    Matcher.run (matchCharacterCtor1 (0 : Nat) 1 'a' true) ['a'] = (0, 0)
    ∧ Matcher.run (matchCharacterCtor2 (0 : Nat) 1 'a' false) ['a'] = (1, 1) := by
  decide

/-- Claim C4: for every configured token, negation flag and input, the
exact-token matcher of either family fails with the configured fail label
and consumed 0 exactly when the input is empty or
(token differs from input[0]) xor negate holds, and otherwise succeeds
consuming one token, with the success label being AcceptState in the
two-label family and ReturnState in the single-ReturnState family. -/
theorem c4_exact_matcher [Inhabited T] (failS accS ret : L) (tok : T)
    (neg : Bool) (input : List T) :
    (matchCharacterMatch failS accS tok neg input
      = if input.length = 0 ∨ Xor' (tok ≠ input.headI) (neg = true)
        then (failS, 0) else (accS, 1))
    ∧ (matchCharacterRetMatch ret tok neg input
      = if input.length = 0 ∨ Xor' (tok ≠ input.headI) (neg = true)
        then (ret, 0) else (ret, 1)) := by
  cases input with
  | nil => simp [matchCharacterMatch, matchCharacterRetMatch]
  | cons x xs =>
    constructor <;>
      simp only [matchCharacterMatch, matchCharacterRetMatch, List.headI,
        List.length, Nat.succ_ne_zero, false_or] <;>
      cases neg <;> by_cases hx : tok = x <;>
      simp [hx, Xor']

/-- Claim C5: for every configured bounds, negation flag and input, the
range matcher of either family fails with consumed 0 exactly when the input
is empty or (input[0] < low or input[0] > high) xor negate holds, and
otherwise succeeds with consumed 1; moreover, without negation, a nonempty
input is accepted exactly when its first token lies inclusively between the
two bounds, and the empty input always fails whatever the flag is. -/
theorem c5_range_matcher [Inhabited T] (failS accS ret : L) (lo hi : T)
    (neg : Bool) (input : List T) :
    (matchCharacterRangeMatch failS accS lo hi neg input
      = if input.length = 0
          ∨ Xor' (input.headI < lo ∨ input.headI > hi) (neg = true)
        then (failS, 0) else (accS, 1))
    ∧ (matchCharacterRangeRetMatch ret lo hi neg input
      = if input.length = 0
          ∨ Xor' (input.headI < lo ∨ input.headI > hi) (neg = true)
        then (ret, 0) else (ret, 1))
    ∧ (∀ (x : T) (xs : List T),
        matchCharacterRangeMatch failS accS lo hi false (x :: xs) = (accS, 1)
          ↔ lo ≤ x ∧ x ≤ hi) := by
  refine ⟨?_, ?_, ?_⟩
  · cases input with
    | nil => simp [matchCharacterRangeMatch]
    | cons x xs =>
      simp only [matchCharacterRangeMatch, List.headI, List.length,
        Nat.succ_ne_zero, false_or]
      cases neg <;> by_cases h1 : x < lo <;> by_cases h2 : x > hi <;>
        simp [h1, h2, Xor']
  · cases input with
    | nil => simp [matchCharacterRangeRetMatch]
    | cons x xs =>
      simp only [matchCharacterRangeRetMatch, List.headI, List.length,
        Nat.succ_ne_zero, false_or]
      cases neg <;> by_cases h1 : x < lo <;> by_cases h2 : x > hi <;>
        simp [h1, h2, Xor']
  · intro x xs
    simp only [matchCharacterRangeMatch, Bool.xor_false]
    by_cases h1 : x < lo
    · simp [h1, Prod.ext_iff, not_le.mpr h1]
    · by_cases h2 : x > hi
      · simp [h1, h2, Prod.ext_iff, not_le.mpr h2]
      · simp [h1, h2, not_lt.mp h1, not_lt.mp h2]

/-- Any early return of the target loop carries a nonzero consumed count:
only line 173 of finitestatemachine.h lets a recursive result escape the
loop, and it requires retVal.second to be nonzero. -/
theorem targetLoop_ne_zero (rec : S → Option (L × Nat)) (l : List S)
    (r : L × Nat) (h : targetLoop rec l = some (some r)) : r.2 ≠ 0 := by
  induction l with
  | nil => simp [targetLoop] at h
  | cons s rest ih =>
    simp only [targetLoop] at h
    split at h
    · simp at h
    · split at h
      · simp_all
      · exact ih h

/-- Any early return of the transition loop carries a nonzero consumed
count, inherited from the target loop. -/
theorem transLoop_ne_zero (rec : List T → S → Nat → Option (L × Nat))
    (failS : L) (input : List T) (charsMatched : Nat)
    (l : List (Matcher T L × List S)) (r : L × Nat)
    (h : transLoop rec failS input charsMatched l = some (some r)) :
    r.2 ≠ 0 := by
  induction l with
  | nil => simp [transLoop] at h
  | cons p rest ih =>
    obtain ⟨m, targets⟩ := p
    simp only [transLoop] at h
    split at h
    · exact ih h
    · split at h
      · simp at h
      · rename_i rv heq
        simp only [Option.some.injEq] at h
        subst h
        exact targetLoop_ne_zero _ targets rv heq
      · exact ih h

/-- The target loop only looks at the recursion through its results, so
pointwise equal recursions give equal loops. -/
theorem targetLoop_congr (rec1 rec2 : S → Option (L × Nat))
    (h : ∀ s, rec1 s = rec2 s) (l : List S) :
    targetLoop rec1 l = targetLoop rec2 l := by
  induction l with
  | nil => rfl
  | cons s rest ih => simp only [targetLoop, h s, ih]

/-- The transition loop only looks at the recursion through its results, so
pointwise equal recursions give equal loops. -/
theorem transLoop_congr (rec1 rec2 : List T → S → Nat → Option (L × Nat))
    (h : ∀ i s c, rec1 i s c = rec2 i s c) (failS : L) (input : List T)
    (charsMatched : Nat) (l : List (Matcher T L × List S)) :
    transLoop rec1 failS input charsMatched l
      = transLoop rec2 failS input charsMatched l := by
  induction l with
  | nil => rfl
  | cons p rest ih =>
    obtain ⟨m, targets⟩ := p
    have ht : targetLoop
        (fun s => rec1 (input.drop (Matcher.run m input).2) s
          (charsMatched + (Matcher.run m input).2)) targets
      = targetLoop
        (fun s => rec2 (input.drop (Matcher.run m input).2) s
          (charsMatched + (Matcher.run m input).2)) targets :=
      targetLoop_congr _ _ (fun s => h _ s _) targets
    simp only [transLoop, ih, ht]

/-- Claim C6: whenever the initial state is bound in the acceptance table
and absent from the state table, Match returns that label with consumed 0
on every input, the empty input included; the traversal ends in the
early-return block of the first call, before any transition is tried. -/
theorem c6_epsilon_accept (M : StateMachine T S L) (input : List T) (lbl : L)
    (fuel : Nat) (h1 : mapFind M.states M.initialState = none)
    (h2 : mapFind M.acceptanceStates M.initialState = some lbl) :
    machineMatch M (fuel + 1) input = some (lbl, 0) := by
  simp [machineMatch, stepMatch, h1, h2]

/-- A machine whose initial state 3 appears only in the acceptance table,
with label 9. -/
def MW6 : StateMachine Char Nat Nat := ⟨0, 3, [], [(3, 9)]⟩

/-- Witness for claim C6, on the empty input and on a one-token input. -/
theorem c6_epsilon_accept_witness :
    machineMatch MW6 1 [] = some (9, 0)
    ∧ machineMatch MW6 1 ['q'] = some (9, 0) :=
  ⟨c6_epsilon_accept MW6 [] 9 0 rfl rfl,
    c6_epsilon_accept MW6 ['q'] 9 0 rfl rfl⟩

/-- Claim C8: a state present in neither the state table nor the acceptance
table is a dead end: on nonempty input the recursive Match returns the
FailState with consumed 0, whatever the accumulated count was. -/
theorem c8_dead_end (M : StateMachine T S L) (fuel : Nat) (x : T)
    (xs : List T) (curState : S) (charsMatched : Nat)
    (h1 : mapFind M.states curState = none)
    (h2 : mapFind M.acceptanceStates curState = none) :
    stepMatch M (fuel + 1) (x :: xs) curState charsMatched
      = some (M.failState, 0) := by
  simp [stepMatch, h1, h2]

/-- A machine knowing only state 0, used to reach the unknown state 5. -/
def MW8 : StateMachine Char Nat Nat := ⟨0, 0, [(0, [])], []⟩

/-- Witness for claim C8: state 5 of MW8 is in neither table and behaves as
a dead end when entered mid-traversal with two characters matched. -/
theorem c8_dead_end_witness :
    stepMatch MW8 1 ['a'] 5 2 = some (MW8.failState, 0) :=
  c8_dead_end MW8 0 'a' [] 5 2 rfl rfl

/-- A machine whose initial state 4 is purely accepting with label 5 and
FailState 0, so Match accepts with consumed 0 and a label that differs from
the FailState. -/
def MC7 : StateMachine Char Nat Nat := ⟨0, 4, [], [(4, 5)]⟩

/-- Counterexample to claim C7: the top-level Match of MC7 on the empty
input returns the pair (5, 0), whose consumed count is 0 but whose label is
not the configured FailState: epsilon acceptance breaks the rule that a
zero count always comes with the fail label. -/
theorem c7_counterexample :
    machineMatch MC7 1 [] = some (5, 0) ∧ MC7.failState ≠ 5 := by
  constructor
  · rfl
  · decide

/-- Claim C7 as amended: whenever the top-level Match returns a consumed
count of 0, the label is the FailState, except that it may instead be the
label bound to the initial state in the acceptance table (epsilon
acceptance at the root call); deeper results only propagate outward when
their consumed count is nonzero. -/
theorem c7_zero_consumed_amended (M : StateMachine T S L) (fuel : Nat)
    (input : List T) (r : L × Nat) (h : machineMatch M fuel input = some r)
    (h0 : r.2 = 0) :
    r.1 = M.failState
      ∨ mapFind M.acceptanceStates M.initialState = some r.1 := by
  cases fuel with
  | zero => exact absurd h (by simp [machineMatch, stepMatch])
  | succ n =>
    unfold machineMatch at h
    simp only [stepMatch] at h
    rcases hs : mapFind M.states M.initialState with _ | ts <;>
      rcases ha : mapFind M.acceptanceStates M.initialState with _ | lbl <;>
      rw [hs, ha] at h <;> simp only [Option.isSome_none, Option.isSome_some,
        Bool.not_true, Bool.not_false, Bool.false_and, Bool.true_and,
        Bool.and_false, Bool.and_true, Bool.or_false, Bool.or_true] at h
    · -- initial state in neither table: both branches give the fail pair
      rw [ite_self] at h
      obtain rfl : (M.failState, 0) = r := Option.some.inj h
      exact Or.inl rfl
    · -- initial state only accepting: epsilon acceptance
      obtain rfl : (lbl, 0) = r := Option.some.inj h
      exact Or.inr rfl
    · -- initial state only in the state table
      split at h
      · obtain rfl : (M.failState, 0) = r := Option.some.inj h
        exact Or.inl rfl
      · cases htl : transLoop (fun i s c => stepMatch M n i s c)
            M.failState input 0 ts with
        | none => rw [htl] at h; simp at h
        | some ov =>
          rw [htl] at h
          cases ov with
          | none =>
            obtain rfl : (M.failState, 0) = r := Option.some.inj h
            exact Or.inl rfl
          | some rv =>
            obtain rfl : rv = r := Option.some.inj h
            exact absurd h0 (transLoop_ne_zero _ _ _ _ _ _ htl)
    · -- initial state in both tables
      split at h
      · obtain rfl : (lbl, 0) = r := Option.some.inj h
        exact Or.inr rfl
      · cases htl : transLoop (fun i s c => stepMatch M n i s c)
            M.failState input 0 ts with
        | none => rw [htl] at h; simp at h
        | some ov =>
          rw [htl] at h
          cases ov with
          | none =>
            obtain rfl : (M.failState, 0) = r := Option.some.inj h
            exact Or.inl rfl
          | some rv =>
            obtain rfl : rv = r := Option.some.inj h
            exact absurd h0 (transLoop_ne_zero _ _ _ _ _ _ htl)

/-- A machine with empty tables: Match fails with the fail pair. -/
def MW7 : StateMachine Char Nat Nat := ⟨0, 0, [], []⟩

/-- Witness for the amended claim C7, at the machine MW7 whose Match on the
empty input returns the pair (0, 0). -/
theorem c7_zero_consumed_amended_witness :
    ((0 : Nat), (0 : Nat)).1 = MW7.failState
      ∨ mapFind MW7.acceptanceStates MW7.initialState
        = some ((0 : Nat), (0 : Nat)).1 :=
  c7_zero_consumed_amended MW7 1 [] (0, 0) rfl rfl

/-- Claim C10: the recursive Match written with the literal up-front
dereference of the state-table lookup (line 151 of finitestatemachine.h)
computes the same result whatever value the dereference of a failed lookup
would yield: every use of the dereferenced transition list sits behind the
validState guard, so the error branch of the lookup never influences the
traversal, for any machine, input, state and fuel. -/
theorem c10_deref_guarded (M : StateMachine T S L)
    (junk : List (Matcher T L × List S)) (fuel : Nat) (input : List T)
    (curState : S) (charsMatched : Nat) :
    stepMatchDeref M junk fuel input curState charsMatched
      = stepMatch M fuel input curState charsMatched := by
  induction fuel generalizing input curState charsMatched with
  | zero => rfl
  | succ n ih =>
    simp only [stepMatchDeref, stepMatch]
    cases hs : mapFind M.states curState with
    | none => simp [hs]
    | some ts =>
      have ht := transLoop_congr (fun i s c => stepMatchDeref M junk n i s c)
        (fun i s c => stepMatch M n i s c) (fun i s c => ih i s c)
        M.failState input charsMatched ts
      simp only [hs, ht, Option.getD_some, Option.isSome_some, Bool.true_and,
        Bool.not_true, Bool.false_and, Bool.or_false, if_true]

end FSM
